import Mathlib

/-!
Shallow embedding of the conformer-generation and optimisation pipeline of
`autode/molecule.py` (classes `Molecule` and `SolvatedMolecule`).

The orchestration logic (branching, mutation order, naming, the greedy
uniqueness loop, the charge-write loop) is translated directly from the
source.  External collaborators that are not part of the provided source
(`Calculation`, `get_simanl_atoms`, `conf_is_unique_rmsd`,
`do_explicit_solvent_qmmm`, the SMILES initialisers, `requires_atoms`,
`autode.atoms.metals`) are modelled from the spec as oracles: their outcomes
are inputs to the embedded functions, so every possible collaborator
behaviour is quantified over.

Python's in-place mutation with exceptions is embedded as a `RunResult`
record carrying the state at the moment the call returns or raises, the
raised error (if any), and the list of files written before that moment.
Atom contents are irrelevant to the pipeline, so geometries are ordered
lists over an arbitrary type `A`.
-/

namespace Autode

/-- The distinct failures the pipeline can raise.  Modelled from the spec:
`noAtomsInMolecule` is `autode.exceptions.NoAtomsInMolecule` (also raised by
the `requires_atoms` precondition decorator); the calculation errors stand
for the external refinement engine failing to run or failing to yield an
energy / final geometry / atomic charges; `keyError` is the lookup failure
when a graph node index is out of range; `samplingWorkerFailed i` is the
error re-raised by `res.get()` for annealing worker `i`; `qmmmFailed` is a
failure of the explicit-solvent QM/MM collaborator. -/
inductive MolErr where
  | noAtomsInMolecule
  | calculationFailed
  | couldNotGetEnergy
  | atomsNotFound
  | couldNotGetCharges
  | keyError
  | samplingWorkerFailed (ordinal : Nat)
  | qmmmFailed
deriving DecidableEq, Repr

/-- `autode.conformers.conformer.Conformer`: a named geometry-bearing entity
with its own charge/multiplicity/solvent.  Built in
`Molecule._generate_conformers` as
`Conformer(name=f'\x7bself.name\x7d_conf\x7bi\x7d', charge=self.charge, mult=self.mult,
atoms=atoms)`; `solvent` is set only when the conformer is accepted. -/
structure Conformer (A : Type) where
  name : String
  charge : Int
  mult : Int
  atoms : List A
  solvent : Option String
deriving DecidableEq, Repr

/-- The state of a `Molecule` (fields set by `Species.__init__` and
`Molecule.__init__`).  The connectivity graph is projected to the only part
the pipeline touches: the per-node `charge` attribute, one entry per graph
node (nodes are atom indices, an attribute is `none` until written). -/
structure Molecule (A : Type) where
  name : String
  smiles : Option String
  charge : Int
  mult : Int
  solvent : Option String
  atoms : List A
  energy : Option Rat
  conformers : Option (List (Conformer A))
  graphNodes : List (Option Rat)
  rdkit_conf_gen_is_fine : Bool
deriving DecidableEq, Repr

/-- `SolvatedMolecule.__init__` adds a solvent-molecule reference and the two
solvent-atom fields, all initially `None`. -/
structure SolvatedMolecule (A : Type) extends Molecule A where
  solvent_mol : Option String
  qm_solvent_atoms : Option (List A)
  mm_solvent_atoms : Option (List A)
deriving DecidableEq, Repr

/-- An `.xyz` file written by `print_xyz_file` (the durable-geometry writer
collaborator): its filename and the geometry it records. -/
structure XyzFile (A : Type) where
  filename : String
  atoms : List A
deriving DecidableEq, Repr

/-- The observable outcome of one Python method call on a mutable object:
the state of the object when the call returns or raises (`err = none` means
a normal return), and the files written before that point. -/
structure RunResult (σ : Type) (A : Type) where
  state : σ
  err : Option MolErr
  files : List (XyzFile A)
deriving DecidableEq, Repr

/-- An electronic-structure method; only its `name` is read by this core. -/
structure Method where
  name : String
deriving DecidableEq, Repr

/-- Modelled from the spec: the outcomes of one job of the external
refinement engine (`Calculation`): whether `run()` succeeds, and what the
extractions `get_energy()`, `get_final_atoms()` and `get_atomic_charges()`
yield (`none` = that extraction fails). -/
structure Calculation (A : Type) where
  runOk : Bool
  energy : Option Rat
  finalAtoms : Option (List A)
  atomicCharges : Option (List Rat)
deriving DecidableEq, Repr

/-- Modelled from the spec: the value returned by the explicit-solvent QM/MM
collaborator `do_explicit_solvent_qmmm` on success (its first tuple
component is discarded by the caller and omitted here). -/
structure QmmmResult (A : Type) where
  species_atoms : List A
  qm_solvent_atoms : List A
  mm_solvent_atoms : List A
deriving DecidableEq, Repr

/-- Modelled from the spec: what a SMILES initialiser populates on the
molecule (atoms, charge, multiplicity; the connectivity graph is rebuilt
from the atoms). -/
structure SmilesInitResult (A : Type) where
  atoms : List A
  charge : Int
  mult : Int
deriving DecidableEq, Repr

/-- Modelled from the spec: the environment of the structure bootstrapper —
the metal symbol list and the two SMILES initialisers (`init_smiles` for
metal-containing input, `init_organic_smiles` otherwise). -/
structure SmilesEnv (A : Type) where
  metals : List String
  init_smiles : String → SmilesInitResult A
  init_organic_smiles : String → SmilesInitResult A

/-- Modelled from the spec: the environment of the conformer sampling
engine — the best-fit RMSD metric `d` with uniqueness threshold `theta`,
the simulated-annealing collaborator `get_simanl_atoms` (arguments: the
molecule, an optional fixed seed, the ordinal index; `none` = that worker
fails), and the embedding collaborator yielding the candidate geometries of
the RDKit branch in embedding-index order. -/
structure ConfGenEnv (A : Type) where
  d : List A → List A → Rat
  theta : Rat
  get_simanl_atoms : Molecule A → Option Nat → Nat → Option (List A)
  rdkit_conf_atoms : Nat → List (List A)

/-- Whether `pat` is a leading block of `s` (character-wise). -/
def charsLeadWith : List Char → List Char → Bool
  | [], _ => true
  | _ :: _, [] => false
  | a :: as, b :: bs => a == b && charsLeadWith as bs

/-- Whether `pat` occurs contiguously in `s` (character-wise). -/
def charsContain (pat : List Char) : List Char → Bool
  | [] => pat.isEmpty
  | b :: bs => charsLeadWith pat (b :: bs) || charsContain pat bs

/-- Python's raw substring test `pat in s` on strings. -/
def substrOf (pat s : String) : Bool :=
  charsContain pat.data s.data

/-- The dispatch condition of `Molecule._init_smiles`:
`any(metal in smiles for metal in metals)` — a raw character substring
test of each metal symbol against the SMILES text. -/
def smiles_contains_metal (ms : List String) (smiles : String) : Bool :=
  ms.any (fun m => substrOf m smiles)

/-- Modelled from the spec: the metal-class element symbols
(`autode.atoms.metals`, not part of the provided source). -/
def autode_metals : List String :=
  ["Li", "Be", "Na", "Mg", "Al", "K", "Ca", "Sc", "Ti", "V", "Cr", "Mn",
   "Fe", "Co", "Ni", "Cu", "Zn", "Ga", "Rb", "Sr", "Y", "Zr", "Nb", "Mo",
   "Tc", "Ru", "Rh", "Pd", "Ag", "Cd", "In", "Sn", "Cs", "Ba", "La", "Ce",
   "Pr", "Nd", "Pm", "Sm", "Eu", "Gd", "Tb", "Dy", "Ho", "Er", "Tm", "Yb",
   "Lu", "Hf", "Ta", "W", "Re", "Os", "Ir", "Pt", "Au", "Hg", "Tl", "Pb",
   "Bi", "Po", "Fr", "Ra", "Ac", "Th", "Pa", "U", "Np", "Pu", "Am", "Cm",
   "Bk", "Cf", "Es", "Fm", "Md", "No", "Lr", "Rf", "Db", "Sg", "Bh", "Hs",
   "Mt", "Ds", "Rg", "Cn"]

/-- Applying a SMILES initialiser's side effects to the molecule: it
populates atoms, charge, multiplicity and the connectivity graph (one node
per atom, no charge attributes yet). -/
def Molecule.apply_smiles_init {A : Type} (mol : Molecule A)
    (r : SmilesInitResult A) : Molecule A :=
  { mol with atoms := r.atoms, charge := r.charge, mult := r.mult,
             graphNodes := List.replicate r.atoms.length none }

/-- `Molecule._init_smiles`: dispatch to `init_smiles` when some metal
symbol is a raw substring of the SMILES text, else to
`init_organic_smiles`. -/
def Molecule._init_smiles {A : Type} (env : SmilesEnv A)
    (mol : Molecule A) (smiles : String) : Molecule A :=
  if smiles_contains_metal env.metals smiles then
    mol.apply_smiles_init (env.init_smiles smiles)
  else
    mol.apply_smiles_init (env.init_organic_smiles smiles)

/-- `make_graph(self)`: derive the connectivity graph from the current atom
geometry — one node per atom, no charge attributes (modelled from the spec:
only the node set with its charge attributes is observable here). -/
def make_graph {A : Type} (mol : Molecule A) : Molecule A :=
  { mol with graphNodes := List.replicate mol.atoms.length none }

/-- `Molecule.__init__`: set the `Species` fields, then
`if smiles: self._init_smiles(smiles) else: make_graph(self)` (an empty
SMILES string is falsy), then raise `NoAtomsInMolecule` when the molecule
ended with zero atoms — in which case no object is produced. -/
def Molecule.init {A : Type} (env : SmilesEnv A) (name : String)
    (smiles : Option String) (atoms : Option (List A))
    (solvent_name : Option String) (charge : Int) (mult : Int) :
    Except MolErr (Molecule A) :=
  let mol : Molecule A :=
    { name := name, smiles := smiles, charge := charge, mult := mult,
      solvent := solvent_name, atoms := atoms.getD [], energy := none,
      conformers := none, graphNodes := [], rdkit_conf_gen_is_fine := true }
  let mol :=
    match smiles with
    | some s => if s.isEmpty then make_graph mol
                else mol._init_smiles env s
    | none => make_graph mol
  if mol.atoms.length = 0 then .error .noAtomsInMolecule else .ok mol

/-- Modelled from the spec: `conf_is_unique_rmsd(conf, conformers)` — the
candidate is unique iff no already-accepted conformer lies within the
threshold `theta` under the best-fit RMSD metric `d`; an empty accepted
list always yields unique. -/
def conf_is_unique_rmsd {A : Type} (d : List A → List A → Rat) (theta : Rat)
    (conf : Conformer A) (conformers : List (Conformer A)) : Bool :=
  conformers.all (fun c => !(decide (d conf.atoms c.atoms < theta)))

/-- The conformer built in the generation loop for candidate index `i`
(before the uniqueness check, so with `solvent = none`). -/
def Molecule.new_conf {A : Type} (mol : Molecule A) (i : Nat)
    (ats : List A) : Conformer A :=
  { name := mol.name ++ "_conf" ++ toString i, charge := mol.charge,
    mult := mol.mult, atoms := ats, solvent := none }

/-- The conformer as stored after acceptance (`conf.solvent =
self.solvent`). -/
def Molecule.accepted_conf {A : Type} (mol : Molecule A) (i : Nat)
    (ats : List A) : Conformer A :=
  { mol.new_conf i ats with solvent := mol.solvent }

/-- The `for i, atoms in enumerate(conf_atoms_list)` loop of
`Molecule._generate_conformers`: build the conformer for each indexed
candidate, keep it iff it is unique against the conformers accepted so
far. -/
def generate_filter {A : Type} (d : List A → List A → Rat) (theta : Rat)
    (mol : Molecule A) :
    List (Nat × List A) → List (Conformer A) → List (Conformer A)
  | [], confs => confs
  | (i, ats) :: rest, confs =>
    if conf_is_unique_rmsd d theta (mol.new_conf i ats) confs then
      generate_filter d theta mol rest (confs ++ [mol.accepted_conf i ats])
    else
      generate_filter d theta mol rest confs

/-- The indexed candidates kept by `generate_filter`, in the same greedy
pass (proof mirror of the loop; same recursion, same conditions). -/
def accepted_pairs {A : Type} (d : List A → List A → Rat) (theta : Rat)
    (mol : Molecule A) :
    List (Nat × List A) → List (Conformer A) → List (Nat × List A)
  | [], _ => []
  | (i, ats) :: rest, confs =>
    if conf_is_unique_rmsd d theta (mol.new_conf i ats) confs then
      (i, ats) :: accepted_pairs d theta mol rest
        (confs ++ [mol.accepted_conf i ats])
    else
      accepted_pairs d theta mol rest confs

/-- `[res.get(timeout=None) for res in results]`: collect the annealing
workers' geometries in submission (ordinal) order; the first failing worker
in that order has its error re-raised. -/
def collect_simanl {A : Type} (f : Nat → Option (List A)) :
    List Nat → Except Nat (List (List A))
  | [] => .ok []
  | i :: rest =>
    match f i with
    | none => .error i
    | some ats =>
      match collect_simanl f rest with
      | .error j => .error j
      | .ok l => .ok (ats :: l)

/-- The pre-filter candidate list of the simulated-annealing branch:
`get_simanl_atoms(self, None, i)` for `i in range(n)`, collected in ordinal
order. -/
def conf_atoms_list_siman {A : Type} (env : ConfGenEnv A)
    (mol : Molecule A) (n : Nat) : Except Nat (List (List A)) :=
  collect_simanl (fun i => env.get_simanl_atoms mol none i) (List.range n)

/-- `Molecule._generate_conformers`: precondition check (`requires_atoms`),
reset `self.conformers = []`, produce the pre-filter candidate list with
the RDKit embedding branch (`smiles is not None and
rdkit_conf_gen_is_fine`) or the simulated-annealing branch, then run the
greedy uniqueness loop over the enumerated candidates. -/
def Molecule._generate_conformers {A : Type} (env : ConfGenEnv A)
    (mol : Molecule A) (n_rdkit_confs n_siman_confs : Nat) :
    RunResult (Molecule A) A :=
  if mol.atoms.length = 0 then ⟨mol, some .noAtomsInMolecule, []⟩
  else
    let m0 := { mol with conformers := some [] }
    if mol.smiles.isSome && mol.rdkit_conf_gen_is_fine then
      let cands := env.rdkit_conf_atoms n_rdkit_confs
      let filtered := generate_filter env.d env.theta mol cands.enum []
      ⟨{ m0 with conformers := some filtered }, none, []⟩
    else
      match conf_atoms_list_siman env mol n_siman_confs with
      | .error i => ⟨m0, some (.samplingWorkerFailed i), []⟩
      | .ok cands =>
        let filtered := generate_filter env.d env.theta mol cands.enum []
        ⟨{ m0 with conformers := some filtered }, none, []⟩

/-- `Species.set_atoms` (modelled from the spec: full replacement of the
current geometry). -/
def Molecule.set_atoms {A : Type} (mol : Molecule A) (ats : List A) :
    Molecule A :=
  { mol with atoms := ats }

/-- `Molecule.optimise(method)`: precondition check, run the optimisation
job, then `self.energy = opt.get_energy()`, then
`self.set_atoms(opt.get_final_atoms())`, then write the refined geometry to
`f'\x7bself.name\x7d_optimised_\x7bmethod.name\x7d.xyz'`.  Each step raises on its
failure outcome, leaving the state as mutated so far. -/
def Molecule.optimise {A : Type} (mol : Molecule A) (method : Method)
    (opt : Calculation A) : RunResult (Molecule A) A :=
  if mol.atoms.length = 0 then ⟨mol, some .noAtomsInMolecule, []⟩
  else if !opt.runOk then ⟨mol, some .calculationFailed, []⟩
  else
    match opt.energy with
    | none => ⟨mol, some .couldNotGetEnergy, []⟩
    | some e =>
      let m1 := { mol with energy := some e }
      match opt.finalAtoms with
      | none => ⟨m1, some .atomsNotFound, []⟩
      | some ats =>
        let m2 := m1.set_atoms ats
        ⟨m2, none,
         [⟨mol.name ++ "_optimised_" ++ method.name ++ ".xyz", m2.atoms⟩]⟩

/-- The `for i, charge in enumerate(opt.get_atomic_charges())` loop of
`SolvatedMolecule.optimise`: write `charge` onto graph node `i`; a node
index beyond the node list raises a lookup error, leaving the nodes written
so far. -/
def write_node_charges :
    List (Option Rat) → Nat → List Rat →
    Except (List (Option Rat)) (List (Option Rat))
  | nodes, _, [] => .ok nodes
  | nodes, i, c :: rest =>
    if i < nodes.length then
      write_node_charges (nodes.set i (some c)) (i + 1) rest
    else
      .error nodes

/-- `SolvatedMolecule.optimise(method)`: the vacuum optimisation steps of
`Molecule.optimise` (including the `.xyz` write), then the charge-write
loop onto the graph nodes, then the explicit-solvent QM/MM sub-search
(`qmmm = none` models its failure), and finally — only on full success —
the species geometry replacement and the assignment of the two
solvent-atom fields. -/
def SolvatedMolecule.optimise {A : Type} (smol : SolvatedMolecule A)
    (method : Method) (opt : Calculation A)
    (qmmm : Option (QmmmResult A)) : RunResult (SolvatedMolecule A) A :=
  if smol.atoms.length = 0 then ⟨smol, some .noAtomsInMolecule, []⟩
  else if !opt.runOk then ⟨smol, some .calculationFailed, []⟩
  else
    match opt.energy with
    | none => ⟨smol, some .couldNotGetEnergy, []⟩
    | some e =>
      let s1 := { smol with energy := some e }
      match opt.finalAtoms with
      | none => ⟨s1, some .atomsNotFound, []⟩
      | some ats =>
        let s2 := { s1 with atoms := ats }
        let file : XyzFile A :=
          ⟨smol.name ++ "_optimised_" ++ method.name ++ ".xyz", s2.atoms⟩
        match opt.atomicCharges with
        | none => ⟨s2, some .couldNotGetCharges, [file]⟩
        | some cs =>
          match write_node_charges s2.graphNodes 0 cs with
          | .error nodesSoFar =>
            ⟨{ s2 with graphNodes := nodesSoFar }, some .keyError, [file]⟩
          | .ok nodes =>
            let s3 := { s2 with graphNodes := nodes }
            match qmmm with
            | none => ⟨s3, some .qmmmFailed, [file]⟩
            | some r =>
              let s4 := { s3 with
                            atoms := r.species_atoms,
                            qm_solvent_atoms := some r.qm_solvent_atoms,
                            mm_solvent_atoms := some r.mm_solvent_atoms }
              ⟨s4, none, [file]⟩

/-! ### Concrete fixtures used to evaluate the pipeline at explicit inputs -/

/-- A three-atom molecule named `water` with no SMILES string, so conformer
generation takes the simulated-annealing branch. -/
def molW : Molecule Int :=
  { name := "water", smiles := none, charge := 0, mult := 1, solvent := none,
    atoms := [0, 1, 2], energy := none, conformers := none,
    graphNodes := [none, none, none], rdkit_conf_gen_is_fine := true }

/-- A sampling environment whose annealing workers return the five
geometries `[0]`, `[0]`, `[0]`, `[5]`, `[9]` (by ordinal) and whose metric
declares two geometries near-duplicates exactly when they are equal. -/
def envW : ConfGenEnv Int :=
  { d := fun g1 g2 => if g1 = g2 then 0 else 2,
    theta := 1,
    get_simanl_atoms := fun _ _ i =>
      some (([[0], [0], [0], [5], [9]] : List (List Int)).getD i []),
    rdkit_conf_atoms := fun _ => [] }

/-- The conformers accepted when generating on `molW` with `envW`:
candidates 1 and 2 are rejected as duplicates of candidate 0. -/
def csW : List (Conformer Int) :=
  [{ name := "water_conf0", charge := 0, mult := 1, atoms := [0],
     solvent := none },
   { name := "water_conf3", charge := 0, mult := 1, atoms := [5],
     solvent := none },
   { name := "water_conf4", charge := 0, mult := 1, atoms := [9],
     solvent := none }]

/-- A sampling environment whose annealing worker `i` returns `[i]`. -/
def envS : ConfGenEnv Int :=
  { d := fun _ _ => 0,
    theta := 0,
    get_simanl_atoms := fun _ _ i => some [(i : Int)],
    rdkit_conf_atoms := fun _ => [] }

/-- A concrete method, named `xtb`. -/
def methodX : Method := { name := "xtb" }

/-- A one-atom molecule that already has an energy, for observing what
optimisation failures leave behind. -/
def molM : Molecule Int :=
  { name := "m", smiles := none, charge := 0, mult := 1, solvent := none,
    atoms := [0], energy := some 7, conformers := none,
    graphNodes := [none], rdkit_conf_gen_is_fine := true }

/-- A calculation whose run fails outright. -/
def calcFail : Calculation Int :=
  { runOk := false, energy := none, finalAtoms := none,
    atomicCharges := none }

/-- A calculation that runs and yields an energy, but whose final-geometry
extraction fails. -/
def calcEnergyOnly : Calculation Int :=
  { runOk := true, energy := some 5, finalAtoms := none,
    atomicCharges := none }

/-- A fully successful optimisation calculation. -/
def calcGood : Calculation Int :=
  { runOk := true, energy := some 3, finalAtoms := some [4, 5],
    atomicCharges := none }

/-- A two-atom solvated molecule with a two-node graph. -/
def smolC2 : SolvatedMolecule Int :=
  { name := "s", smiles := none, charge := 0, mult := 1, solvent := none,
    atoms := [0, 1], energy := none, conformers := none,
    graphNodes := [none, none], rdkit_conf_gen_is_fine := true,
    solvent_mol := none, qm_solvent_atoms := none, mm_solvent_atoms := none }

/-- A successful calculation on a two-atom molecule that returns only ONE
atomic charge — one fewer than the atom count. -/
def calcC2 : Calculation Int :=
  { runOk := true, energy := some 1, finalAtoms := some [0, 1],
    atomicCharges := some [3] }

/-- A successful explicit-solvent QM/MM sub-search result. -/
def qmmmC2 : QmmmResult Int :=
  { species_atoms := [0, 1], qm_solvent_atoms := [], mm_solvent_atoms := [] }

/-- A bootstrapper environment with no metals and initialisers that always
produce the one-atom geometry `[7]`. -/
def envOrg : SmilesEnv Int :=
  { metals := [],
    init_smiles := fun _ => { atoms := [7], charge := 0, mult := 1 },
    init_organic_smiles := fun _ => { atoms := [7], charge := 0, mult := 1 } }

/-- The molecule produced by `Molecule.init envOrg "m" none (some [5]) none
0 1`. -/
def mol5 : Molecule Int :=
  { name := "m", smiles := none, charge := 0, mult := 1, solvent := none,
    atoms := [5], energy := none, conformers := none,
    graphNodes := [none], rdkit_conf_gen_is_fine := true }

/-- A zero-atom molecule state (constructible only by direct field
assignment, since `Molecule.init` refuses it). -/
def molEmpty : Molecule Int :=
  { name := "e", smiles := none, charge := 0, mult := 1, solvent := none,
    atoms := [], energy := none, conformers := none,
    graphNodes := [], rdkit_conf_gen_is_fine := true }

/-- A bootstrapper environment carrying the real metal list, whose two
initialisers produce distinguishable results. -/
def envM : SmilesEnv Int :=
  { metals := autode_metals,
    init_smiles := fun _ => { atoms := [1], charge := 2, mult := 3 },
    init_organic_smiles := fun _ => { atoms := [2], charge := 0, mult := 1 } }

/-! ### Helper lemmas about the generation loop, the worker collection and
the charge-write loop -/

/-- The generation loop appends exactly the conformers built from the
greedily kept indexed candidates. -/
theorem generate_filter_eq_append {A : Type} (d : List A → List A → Rat)
    (theta : Rat) (mol : Molecule A) :
    ∀ (l : List (Nat × List A)) (confs : List (Conformer A)),
      generate_filter d theta mol l confs =
        confs ++ (accepted_pairs d theta mol l confs).map
          (fun p => mol.accepted_conf p.1 p.2) := by
  intro l
  induction l with
  | nil => intro confs; simp [generate_filter, accepted_pairs]
  | cons p rest ih =>
    intro confs
    obtain ⟨i, ats⟩ := p
    by_cases h : conf_is_unique_rmsd d theta (mol.new_conf i ats) confs
    · simp only [generate_filter, accepted_pairs, if_pos h, List.map_cons]
      rw [ih]
      simp
    · simp only [generate_filter, accepted_pairs, if_neg h]
      exact ih confs

/-- The kept indexed candidates form a sublist of the candidate list, so
they appear in candidate order. -/
theorem accepted_pairs_sublist {A : Type} (d : List A → List A → Rat)
    (theta : Rat) (mol : Molecule A) :
    ∀ (l : List (Nat × List A)) (confs : List (Conformer A)),
      List.Sublist (accepted_pairs d theta mol l confs) l := by
  intro l
  induction l with
  | nil =>
    intro confs
    simp only [accepted_pairs]
    exact List.nil_sublist _
  | cons p rest ih =>
    intro confs
    obtain ⟨i, ats⟩ := p
    by_cases h : conf_is_unique_rmsd d theta (mol.new_conf i ats) confs
    · simp only [accepted_pairs, if_pos h]
      exact List.Sublist.cons₂ _ (ih _)
    · simp only [accepted_pairs, if_neg h]
      exact List.Sublist.cons _ (ih _)

/-- For a symmetric metric, the greedy loop keeps the accepted set pairwise
at least `theta` apart: each accepted conformer was checked against every
earlier accepted one. -/
theorem pairwise_generate_filter {A : Type} (d : List A → List A → Rat)
    (theta : Rat) (mol : Molecule A)
    (hsym : ∀ g1 g2 : List A, d g1 g2 = d g2 g1) :
    ∀ (l : List (Nat × List A)) (confs : List (Conformer A)),
      confs.Pairwise (fun c1 c2 => ¬ d c1.atoms c2.atoms < theta) →
      (generate_filter d theta mol l confs).Pairwise
        (fun c1 c2 => ¬ d c1.atoms c2.atoms < theta) := by
  intro l
  induction l with
  | nil => intro confs h; simpa [generate_filter] using h
  | cons p rest ih =>
    intro confs h
    obtain ⟨i, ats⟩ := p
    by_cases hu : conf_is_unique_rmsd d theta (mol.new_conf i ats) confs
    · simp only [generate_filter, if_pos hu]
      apply ih
      have hall : ∀ c ∈ confs, ¬ d ats c.atoms < theta := by
        simpa [conf_is_unique_rmsd, Molecule.new_conf, List.all_eq_true]
          using hu
      rw [List.pairwise_append]
      refine ⟨h, by simp, ?_⟩
      intro c hc b hb
      rw [List.mem_singleton] at hb
      subst hb
      simp only [Molecule.accepted_conf, Molecule.new_conf]
      rw [hsym]
      exact hall c hc
    · simp only [generate_filter, if_neg hu]
      exact ih confs h

/-- Collecting worker results in ordinal order yields one geometry per
submitted ordinal. -/
theorem collect_simanl_length {A : Type} (f : Nat → Option (List A)) :
    ∀ (idx : List Nat) (l : List (List A)),
      collect_simanl f idx = .ok l → l.length = idx.length := by
  intro idx
  induction idx with
  | nil =>
    intro l h
    simp only [collect_simanl, Except.ok.injEq] at h
    rw [← h]
    rfl
  | cons i rest ih =>
    intro l h
    simp only [collect_simanl] at h
    cases hf : f i with
    | none => rw [hf] at h; exact absurd h (by simp)
    | some ats =>
      rw [hf] at h
      cases hr : collect_simanl f rest with
      | error j => rw [hr] at h; exact absurd h (by simp)
      | ok l2 =>
        rw [hr] at h
        simp only [Except.ok.injEq] at h
        rw [← h]
        simp [ih l2 hr]

/-- When no worker fails, collection succeeds and returns, at each ordinal,
exactly that ordinal's result. -/
theorem collect_simanl_all_some {A : Type} (f : Nat → Option (List A)) :
    ∀ (idx : List Nat), (∀ i ∈ idx, (f i).isSome) →
      ∃ l, collect_simanl f idx = .ok l ∧ l.length = idx.length ∧
        ∀ k : Nat, l.get? k = (idx.get? k).bind f := by
  intro idx
  induction idx with
  | nil =>
    intro _
    exact ⟨[], rfl, rfl, fun k => by cases k <;> rfl⟩
  | cons i rest ih =>
    intro hall
    obtain ⟨a, ha⟩ := Option.isSome_iff_exists.mp (hall i (by simp))
    obtain ⟨l, hl, hlen, hget⟩ := ih (fun j hj => hall j (by simp [hj]))
    refine ⟨a :: l, ?_, by simp [hlen], ?_⟩
    · simp [collect_simanl, ha, hl]
    · intro k
      cases k with
      | zero => simp [ha]
      | succ n => simpa using hget n

/-- When the charge list fits inside the node list, the write loop
succeeds, writes exactly the given charges at offsets, and leaves every
other node attribute unchanged (no padding). -/
theorem write_node_charges_ok :
    ∀ (cs : List Rat) (nodes : List (Option Rat)) (i : Nat),
      i + cs.length ≤ nodes.length →
      ∃ nodes2, write_node_charges nodes i cs = .ok nodes2 ∧
        nodes2.length = nodes.length ∧
        (∀ k c, cs.get? k = some c → nodes2.get? (i + k) = some (some c)) ∧
        (∀ k, k < i ∨ i + cs.length ≤ k → nodes2.get? k = nodes.get? k) := by
  intro cs
  induction cs with
  | nil =>
    intro nodes i _
    exact ⟨nodes, rfl, rfl, fun k c hk => by simp at hk, fun k _ => rfl⟩
  | cons c rest ih =>
    intro nodes i h
    have hi : i < nodes.length := by simp at h; omega
    obtain ⟨n2, hw, hlen, hget, hunch⟩ :=
      ih (nodes.set i (some c)) (i + 1) (by simp at h ⊢; omega)
    refine ⟨n2, ?_, by simpa using hlen, ?_, ?_⟩
    · simp [write_node_charges, hi, hw]
    · intro k cc hk
      cases k with
      | zero =>
        simp only [List.get?_cons_zero, Option.some.injEq] at hk
        subst hk
        have h2 := hunch i (Or.inl (by omega))
        rw [Nat.add_zero, h2, List.get?_set_eq_of_lt _ hi]
      | succ n =>
        have h3 : i + (n + 1) = (i + 1) + n := by omega
        rw [h3]
        exact hget n cc (by simpa using hk)
    · intro k hk
      have hne : i ≠ k := by
        rcases hk with hk | hk
        · omega
        · simp at hk; omega
      have h2 : n2.get? k = (nodes.set i (some c)).get? k := by
        apply hunch
        rcases hk with hk | hk
        · exact Or.inl (by omega)
        · refine Or.inr ?_
          simp at hk ⊢
          omega
      rw [h2, List.get?_set_ne _ _ hne]

/-- When a nonempty charge list overruns the node list, the write loop
raises a lookup error. -/
theorem write_node_charges_err :
    ∀ (cs : List Rat) (nodes : List (Option Rat)) (i : Nat),
      cs ≠ [] → nodes.length < i + cs.length →
      ∃ nodes2, write_node_charges nodes i cs = .error nodes2 := by
  intro cs
  induction cs with
  | nil => intro nodes i hne _; exact absurd rfl hne
  | cons c rest ih =>
    intro nodes i _ hlen
    by_cases hi : i < nodes.length
    · have hrest : rest ≠ [] := by
        intro he
        subst he
        simp at hlen
        omega
      obtain ⟨n2, hw⟩ :=
        ih (nodes.set i (some c)) (i + 1) hrest (by simp at hlen ⊢; omega)
      exact ⟨n2, by simp [write_node_charges, hi, hw]⟩
    · exact ⟨nodes, by simp [write_node_charges, hi]⟩

/-! ### Claim theorems -/

/-- C10: `Molecule._init_smiles` dispatches to the metal-containing
initialiser if and only if some metal element symbol occurs as a raw
character substring of the SMILES text; consequently the purely organic
SMILES `CSc1ccccc1` (methyl phenyl sulfide — only C, S and H atoms), whose
text contains the metal symbol `Sc` as a substring, satisfies the metal
dispatch condition. -/
theorem c10_metal_substring_dispatch (A : Type) :
    (∀ (env : SmilesEnv A) (mol : Molecule A) (s : String),
        smiles_contains_metal env.metals s = true →
          mol._init_smiles env s =
            mol.apply_smiles_init (env.init_smiles s)) ∧
    (∀ (env : SmilesEnv A) (mol : Molecule A) (s : String),
        smiles_contains_metal env.metals s = false →
          mol._init_smiles env s =
            mol.apply_smiles_init (env.init_organic_smiles s)) ∧
    smiles_contains_metal autode_metals "CSc1ccccc1" = true := by
  refine ⟨?_, ?_, by decide⟩
  · intro env mol s h
    simp [Molecule._init_smiles, h]
  · intro env mol s h
    simp [Molecule._init_smiles, h]

/-- Witness for C10: the organic SMILES `CSc1ccccc1` is dispatched to the
metal-containing initialiser under the real metal list. -/
theorem c10_metal_substring_dispatch_witness :
    molW._init_smiles envM "CSc1ccccc1" =
      molW.apply_smiles_init (envM.init_smiles "CSc1ccccc1") :=
  (c10_metal_substring_dispatch Int).1 envM molW "CSc1ccccc1" (by decide)

/-- C7: construction never yields a zero-atom molecule (a zero-atom outcome
raises instead, so no object is produced), and conformer generation and
optimisation (vacuum and solvated) on a zero-atom molecule raise
`noAtomsInMolecule` immediately with the state untouched and no files
written — for every collaborator environment, i.e. before any external
collaborator is invoked. -/
theorem c7_zero_atoms_rejected (A : Type) :
    (∀ (env : SmilesEnv A) (nm : String) (smiles : Option String)
        (atoms : Option (List A)) (solv : Option String) (q m : Int)
        (mol : Molecule A),
        Molecule.init env nm smiles atoms solv q m = .ok mol →
          mol.atoms.length ≠ 0) ∧
    (∀ (env : ConfGenEnv A) (mol : Molecule A) (nr ns : Nat),
        mol.atoms = [] →
          mol._generate_conformers env nr ns =
            ⟨mol, some .noAtomsInMolecule, []⟩) ∧
    (∀ (mol : Molecule A) (method : Method) (opt : Calculation A),
        mol.atoms = [] →
          mol.optimise method opt = ⟨mol, some .noAtomsInMolecule, []⟩) ∧
    (∀ (smol : SolvatedMolecule A) (method : Method) (opt : Calculation A)
        (qmmm : Option (QmmmResult A)),
        smol.atoms = [] →
          smol.optimise method opt qmmm =
            ⟨smol, some .noAtomsInMolecule, []⟩) := by
  refine ⟨?_, ?_, ?_, ?_⟩
  · intro env nm smiles atoms solv q m mol h
    simp only [Molecule.init] at h
    split at h
    · exact absurd h (by simp)
    · next hne =>
        simp only [Except.ok.injEq] at h
        rw [← h]
        exact hne
  · intro env mol nr ns h
    simp [Molecule._generate_conformers, h]
  · intro mol method opt h
    simp [Molecule.optimise, h]
  · intro smol method opt qmmm h
    simp [SolvatedMolecule.optimise, h]

/-- Witness for C7: a successful construction yields a molecule with atoms,
and generation on a zero-atom molecule state raises immediately. -/
theorem c7_zero_atoms_rejected_witness :
    mol5.atoms.length ≠ 0 ∧
    molEmpty._generate_conformers envW 1 1 =
      ⟨molEmpty, some .noAtomsInMolecule, []⟩ ∧
    molEmpty.optimise methodX calcGood =
      ⟨molEmpty, some .noAtomsInMolecule, []⟩ :=
  ⟨(c7_zero_atoms_rejected Int).1 envOrg "m" none (some [5]) none 0 1 mol5
     (by rfl),
   (c7_zero_atoms_rejected Int).2.1 envW molEmpty 1 1 rfl,
   (c7_zero_atoms_rejected Int).2.2.1 molEmpty methodX calcGood rfl⟩

/-- C4: on a fully successful refinement, `optimise` returns normally, the
molecule's energy is exactly the engine's scalar energy, its atom sequence
is exactly the engine's refined geometry (full replacement), and that
geometry is persisted to `<name>_optimised_<method>.xyz`. -/
theorem c4_success_applies_engine_values (A : Type) (mol : Molecule A)
    (method : Method) (opt : Calculation A) (e : Rat) (ats : List A)
    (h0 : mol.atoms.length ≠ 0) (hr : opt.runOk = true)
    (he : opt.energy = some e) (hf : opt.finalAtoms = some ats) :
    (mol.optimise method opt).err = none ∧
    (mol.optimise method opt).state.energy = some e ∧
    (mol.optimise method opt).state.atoms = ats ∧
    (mol.optimise method opt).files =
      [⟨mol.name ++ "_optimised_" ++ method.name ++ ".xyz", ats⟩] := by
  simp [Molecule.optimise, h0, hr, he, hf, Molecule.set_atoms]

/-- Witness for C4 at a concrete molecule and calculation. -/
theorem c4_success_applies_engine_values_witness :
    (molM.optimise methodX calcGood).err = none ∧
    (molM.optimise methodX calcGood).state.energy = some 3 ∧
    (molM.optimise methodX calcGood).state.atoms = [4, 5] ∧
    (molM.optimise methodX calcGood).files =
      [⟨molM.name ++ "_optimised_" ++ methodX.name ++ ".xyz", [4, 5]⟩] :=
  c4_success_applies_engine_values Int molM methodX calcGood 3 [4, 5]
    (by decide) rfl rfl rfl

/-- C3 counterexample: with a calculation whose run succeeds and whose
energy extraction succeeds (energy 5) but whose final-geometry extraction
fails, `optimise` on `molM` (pre-call energy 7) raises `atomsNotFound`
while the molecule's energy has already been overwritten to 5 — so at the
point the failure is raised the energy does NOT equal its pre-call value,
refuting the claim as stated. -/
theorem c3_counterexample :
    (molM.optimise methodX calcEnergyOnly).err = some .atomsNotFound ∧
    molM.energy = some 7 ∧
    (molM.optimise methodX calcEnergyOnly).state.atoms = molM.atoms ∧
    (molM.optimise methodX calcEnergyOnly).state.energy = some 5 ∧
    (molM.optimise methodX calcEnergyOnly).state.energy ≠ molM.energy :=
  ⟨rfl, rfl, rfl, rfl, by decide⟩

/-- C3 amended: on any `optimise` failure the molecule's atom sequence
still equals its pre-call value and nothing was persisted, and a refined
geometry is never applied without its matching energy; the energy also
still equals its pre-call value for every failure except a final-geometry
extraction failure, in which case the energy has already been overwritten
with the engine's extracted energy. -/
theorem c3_failure_leaves_prior_state (A : Type) (mol : Molecule A)
    (method : Method) (opt : Calculation A) (e : MolErr)
    (h : (mol.optimise method opt).err = some e) :
    (mol.optimise method opt).state.atoms = mol.atoms ∧
    (mol.optimise method opt).files = [] ∧
    (e ≠ .atomsNotFound →
      (mol.optimise method opt).state.energy = mol.energy) ∧
    (e = .atomsNotFound →
      (mol.optimise method opt).state.energy = opt.energy) := by
  obtain ⟨runOk, energy, fat, chg⟩ := opt
  cases runOk <;> cases energy <;> cases fat <;>
    by_cases h0 : mol.atoms.length = 0 <;>
    simp_all [Molecule.optimise, Molecule.set_atoms] <;>
    (intro he; subst he; simp_all)

/-- Witness for C3 (amended) at a concrete failing calculation. -/
theorem c3_failure_leaves_prior_state_witness :
    (molM.optimise methodX calcFail).state.atoms = molM.atoms ∧
    (molM.optimise methodX calcFail).state.energy = molM.energy :=
  ⟨(c3_failure_leaves_prior_state Int molM methodX calcFail
      .calculationFailed rfl).1,
   (c3_failure_leaves_prior_state Int molM methodX calcFail
      .calculationFailed rfl).2.2.1 (by decide)⟩

/-- C9: neither a successful nor a failing optimisation call (vacuum or
solvated) changes the molecule's charge or multiplicity — nor its name,
SMILES, solvent, or conformer collection; the vacuum call also leaves the
graph node charges untouched, so only energy, the atom sequence and (for
the solvated call) graph node charges and solvent-atom fields are ever
mutated. -/
theorem c9_charge_mult_never_mutated (A : Type) :
    (∀ (mol : Molecule A) (method : Method) (opt : Calculation A),
      (mol.optimise method opt).state.charge = mol.charge ∧
      (mol.optimise method opt).state.mult = mol.mult ∧
      (mol.optimise method opt).state.name = mol.name ∧
      (mol.optimise method opt).state.smiles = mol.smiles ∧
      (mol.optimise method opt).state.solvent = mol.solvent ∧
      (mol.optimise method opt).state.conformers = mol.conformers ∧
      (mol.optimise method opt).state.graphNodes = mol.graphNodes) ∧
    (∀ (smol : SolvatedMolecule A) (method : Method) (opt : Calculation A)
        (qmmm : Option (QmmmResult A)),
      (smol.optimise method opt qmmm).state.charge = smol.charge ∧
      (smol.optimise method opt qmmm).state.mult = smol.mult ∧
      (smol.optimise method opt qmmm).state.name = smol.name ∧
      (smol.optimise method opt qmmm).state.smiles = smol.smiles ∧
      (smol.optimise method opt qmmm).state.solvent = smol.solvent ∧
      (smol.optimise method opt qmmm).state.conformers = smol.conformers ∧
      (smol.optimise method opt qmmm).state.solvent_mol =
        smol.solvent_mol) := by
  constructor
  · intro mol method opt
    unfold Molecule.optimise
    repeat' split
    all_goals simp [Molecule.set_atoms]
  · intro smol method opt qmmm
    unfold SolvatedMolecule.optimise
    repeat' split
    all_goals try simp
    all_goals repeat' split
    all_goals simp

/-- C5: with `n` requested annealing attempts and no worker failing, the
pre-filter candidate list used by `Molecule._generate_conformers` contains
exactly `n` geometries, re-sequenced by ordinal index 0..n-1 (submission
order): the entry at position `i` is exactly the result of the run invoked
with ordinal index `i` (and no fixed seed, so the run derives its seed from
that index). -/
theorem c5_siman_candidate_list (A : Type) (env : ConfGenEnv A)
    (mol : Molecule A) (n : Nat)
    (hall : ∀ i, i < n → (env.get_simanl_atoms mol none i).isSome) :
    ∃ l, conf_atoms_list_siman env mol n = .ok l ∧ l.length = n ∧
      ∀ i, i < n → l.get? i = env.get_simanl_atoms mol none i := by
  obtain ⟨l, hl, hlen, hget⟩ :=
    collect_simanl_all_some (fun i => env.get_simanl_atoms mol none i)
      (List.range n) (fun i hi => hall i (List.mem_range.mp hi))
  refine ⟨l, hl, by simpa using hlen, ?_⟩
  intro i hi
  have h2 := hget i
  rw [List.get?_range hi] at h2
  simpa using h2

/-- Witness for C5 with three all-succeeding workers. -/
theorem c5_siman_candidate_list_witness :
    ∃ l, conf_atoms_list_siman envS molW 3 = .ok l ∧ l.length = 3 ∧
      ∀ i, i < 3 → l.get? i = envS.get_simanl_atoms molW none i :=
  c5_siman_candidate_list Int envS molW 3 (fun _ _ => rfl)

/-- The metric of `envW` is symmetric. -/
theorem envW_d_symm : ∀ g1 g2 : List Int, envW.d g1 g2 = envW.d g2 g1 := by
  intro g1 g2
  show (if g1 = g2 then (0 : Rat) else 2) = if g2 = g1 then (0 : Rat) else 2
  by_cases h : g1 = g2
  · rw [h]
  · rw [if_neg h, if_neg (fun h2 => h h2.symm)]

/-- C6: for a symmetric metric, the conformer collection produced by
generation never contains two geometries closer than the threshold — the
greedy loop compares each candidate against every already-accepted
conformer — and the uniqueness filter on an empty accepted set always
answers `unique`. -/
theorem c6_accepted_set_pairwise_separated (A : Type) (env : ConfGenEnv A)
    (mol : Molecule A) (nr ns : Nat)
    (hsym : ∀ g1 g2 : List A, env.d g1 g2 = env.d g2 g1)
    (hne : mol.atoms ≠ []) (cs : List (Conformer A))
    (hres : (mol._generate_conformers env nr ns).state.conformers = some cs) :
    cs.Pairwise (fun c1 c2 => ¬ env.d c1.atoms c2.atoms < env.theta) ∧
    ∀ conf : Conformer A, conf_is_unique_rmsd env.d env.theta conf [] = true := by
  refine ⟨?_, fun conf => rfl⟩
  have h0 : ¬ mol.atoms.length = 0 := by
    simpa [List.length_eq_zero] using hne
  simp only [Molecule._generate_conformers, if_neg h0] at hres
  by_cases hb : (mol.smiles.isSome && mol.rdkit_conf_gen_is_fine) = true
  · rw [if_pos hb] at hres
    simp only [Option.some.injEq] at hres
    rw [← hres]
    exact pairwise_generate_filter env.d env.theta mol hsym _ [] (by simp)
  · rw [if_neg hb] at hres
    cases hc : conf_atoms_list_siman env mol ns with
    | error i =>
      rw [hc] at hres
      simp only [Option.some.injEq] at hres
      rw [← hres]
      exact List.Pairwise.nil
    | ok cands =>
      rw [hc] at hres
      simp only [Option.some.injEq] at hres
      rw [← hres]
      exact pairwise_generate_filter env.d env.theta mol hsym _ [] (by simp)

/-- Witness for C6 at the concrete water fixture. -/
theorem c6_accepted_set_pairwise_separated_witness :
    csW.Pairwise (fun c1 c2 => ¬ envW.d c1.atoms c2.atoms < envW.theta) ∧
    ∀ conf : Conformer Int,
      conf_is_unique_rmsd envW.d envW.theta conf [] = true :=
  c6_accepted_set_pairwise_separated Int envW molW 300 5 envW_d_symm
    (by decide) csW (by decide)

/-- C1 counterexample: on the molecule named `water` the annealing branch
produces the 5 candidates `[0], [0], [0], [5], [9]`; candidates 1 and 2 are
rejected as near-duplicates of accepted candidate 0 (exactly 2 rejections),
generation succeeds with exactly 3 accepted conformers — but their names
are `water_conf0`, `water_conf3`, `water_conf4`, not
`water_conf0`..`water_conf2`: the name records the index in the pre-filter
candidate list, not the acceptance rank.  This refutes the claim as
stated. -/
theorem c1_counterexample :
    conf_atoms_list_siman envW molW 5 =
      .ok [[0], [0], [0], [5], [9]] ∧
    (molW._generate_conformers envW 300 5).err = none ∧
    (molW._generate_conformers envW 300 5).state.conformers.map
      (fun cs => cs.length) = some 3 ∧
    (molW._generate_conformers envW 300 5).state.conformers.map
      (fun cs => cs.map (fun c => c.name)) =
      some ["water_conf0", "water_conf3", "water_conf4"] ∧
    ["water_conf0", "water_conf3", "water_conf4"] ≠
      ["water_conf0", "water_conf1", "water_conf2"] :=
  ⟨rfl, rfl, rfl, by decide, by decide⟩

/-- C1 amended: when the annealing branch yields 5 candidates and exactly 2
are rejected by the uniqueness filter, the molecule ends with exactly 3
accepted conformers, assigned to the accepted geometries in first-seen
order; each is named `<name>_conf<i>` where `i` is the index of its
geometry in the pre-filter candidate list — i.e. the names carry the three
accepted candidate indices `i1 < i2 < i3 < 5`, which equal `0, 1, 2` only
when the two rejected candidates come last. -/
theorem c1_accepted_conformer_names (A : Type) (env : ConfGenEnv A)
    (mol : Molecule A) (nr : Nat) (cands : List (List A))
    (cs : List (Conformer A))
    (h0 : mol.atoms.length ≠ 0)
    (hb : (mol.smiles.isSome && mol.rdkit_conf_gen_is_fine) = false)
    (hc : conf_atoms_list_siman env mol 5 = .ok cands)
    (hres : (mol._generate_conformers env nr 5).state.conformers = some cs)
    (hlen : cs.length = 3) :
    ∃ i1 g1 i2 g2 i3 g3,
      cs = [mol.accepted_conf i1 g1, mol.accepted_conf i2 g2,
            mol.accepted_conf i3 g3] ∧
      List.Sublist [(i1, g1), (i2, g2), (i3, g3)] cands.enum ∧
      i1 < i2 ∧ i2 < i3 ∧ i3 < 5 ∧
      cands.get? i1 = some g1 ∧ cands.get? i2 = some g2 ∧
      cands.get? i3 = some g3 := by
  have hcl : cands.length = 5 := by
    simpa using
      collect_simanl_length (fun i => env.get_simanl_atoms mol none i)
        (List.range 5) cands hc
  simp only [Molecule._generate_conformers, if_neg h0, hb,
    Bool.false_eq_true, if_false, hc] at hres
  simp only [Option.some.injEq] at hres
  have hcs : cs = (accepted_pairs env.d env.theta mol cands.enum []).map
      (fun p => mol.accepted_conf p.1 p.2) := by
    rw [← hres, generate_filter_eq_append]
    simp
  have hpl : (accepted_pairs env.d env.theta mol cands.enum []).length = 3 := by
    have := hlen
    rw [hcs] at this
    simpa using this
  obtain ⟨p1, p2, p3, hp⟩ := List.length_eq_three.mp hpl
  obtain ⟨i1, g1⟩ := p1
  obtain ⟨i2, g2⟩ := p2
  obtain ⟨i3, g3⟩ := p3
  have hsub : List.Sublist [(i1, g1), (i2, g2), (i3, g3)] cands.enum := by
    rw [← hp]
    exact accepted_pairs_sublist env.d env.theta mol cands.enum []
  have hfst : List.Sublist [i1, i2, i3] (List.range cands.length) := by
    have h2 := List.Sublist.map Prod.fst hsub
    rwa [List.enum_map_fst] at h2
  have hpw : List.Pairwise (· < ·) [i1, i2, i3] :=
    List.Pairwise.sublist hfst (List.pairwise_lt_range _)
  have h12 : i1 < i2 ∧ i1 < i3 ∧ i2 < i3 := by
    simpa [List.pairwise_cons, and_assoc] using hpw
  have hi3 : i3 < 5 := by
    have h3 : i3 ∈ List.range cands.length := hfst.subset (by simp)
    rw [hcl] at h3
    simpa using h3
  have hmem : ∀ p ∈ [(i1, g1), (i2, g2), (i3, g3)],
      cands.get? p.1 = some p.2 := by
    intro p hp2
    exact List.mem_enum_iff_get?.mp (hsub.subset hp2)
  refine ⟨i1, g1, i2, g2, i3, g3, ?_, hsub, h12.1, h12.2.2, hi3,
    hmem (i1, g1) (by simp), hmem (i2, g2) (by simp),
    hmem (i3, g3) (by simp)⟩
  rw [hcs, hp]
  simp

/-- Witness for C1 (amended) at the concrete water fixture. -/
theorem c1_accepted_conformer_names_witness :
    ∃ i1 g1 i2 g2 i3 g3,
      csW = [molW.accepted_conf i1 g1, molW.accepted_conf i2 g2,
             molW.accepted_conf i3 g3] ∧
      List.Sublist [(i1, g1), (i2, g2), (i3, g3)]
        ([[0], [0], [0], [5], [9]] : List (List Int)).enum ∧
      i1 < i2 ∧ i2 < i3 ∧ i3 < 5 ∧
      ([[0], [0], [0], [5], [9]] : List (List Int)).get? i1 = some g1 ∧
      ([[0], [0], [0], [5], [9]] : List (List Int)).get? i2 = some g2 ∧
      ([[0], [0], [0], [5], [9]] : List (List Int)).get? i3 = some g3 :=
  c1_accepted_conformer_names Int envW molW 300 [[0], [0], [0], [5], [9]]
    csW (by decide) rfl rfl (by decide) rfl

/-- C2 counterexample: on the two-atom solvated molecule `smolC2`, a
refinement returning only ONE atomic charge (length 1 ≠ atom count 2)
does NOT fail: solvated optimisation completes normally (`err = none`)
having silently written only one node charge attribute — the second graph
node attribute is still unset.  This refutes the claim that a length
mismatch is always fatal. -/
theorem c2_counterexample :
    smolC2.atoms.length = 2 ∧
    calcC2.atomicCharges.map (fun cs => cs.length) = some 1 ∧
    (smolC2.optimise methodX calcC2 (some qmmmC2)).err = none ∧
    (smolC2.optimise methodX calcC2 (some qmmmC2)).state.graphNodes =
      [some 3, none] :=
  ⟨rfl, rfl, rfl, by decide⟩

/-- C2 amended: during solvated charge extraction, a charge list no longer
than the graph's node list (the atom count) is written without any error —
in particular a strictly SHORTER list is silently truncated, updating only
its own length's worth of node attributes and leaving every later node
attribute unchanged (never padded); only a charge list strictly longer than
the node list is fatal, raising a lookup error. -/
theorem c2_charge_write_truncates_or_raises (A : Type)
    (smol : SolvatedMolecule A) (method : Method) (opt : Calculation A)
    (qmmm : Option (QmmmResult A)) (e : Rat) (ats : List A) (cs : List Rat)
    (r : QmmmResult A)
    (h0 : smol.atoms.length ≠ 0) (hr : opt.runOk = true)
    (he : opt.energy = some e) (hf : opt.finalAtoms = some ats)
    (hcs : opt.atomicCharges = some cs) (hq : qmmm = some r) :
    (cs.length ≤ smol.graphNodes.length →
      (smol.optimise method opt qmmm).err = none ∧
      (smol.optimise method opt qmmm).state.graphNodes.length =
        smol.graphNodes.length ∧
      (∀ k c, cs.get? k = some c →
        (smol.optimise method opt qmmm).state.graphNodes.get? k =
          some (some c)) ∧
      (∀ k, cs.length ≤ k →
        (smol.optimise method opt qmmm).state.graphNodes.get? k =
          smol.graphNodes.get? k)) ∧
    (smol.graphNodes.length < cs.length →
      (smol.optimise method opt qmmm).err = some .keyError) := by
  constructor
  · intro hle
    obtain ⟨n2, hw, hlen, hget, hunch⟩ :=
      write_node_charges_ok cs smol.graphNodes 0 (by omega)
    simp only [SolvatedMolecule.optimise, if_neg h0, hr, Bool.not_true,
      Bool.false_eq_true, if_false, he, hf, hcs, hq, hw]
    refine ⟨by trivial, hlen, ?_, ?_⟩
    · intro k c hk
      have h2 := hget k c hk
      rwa [Nat.zero_add] at h2
    · intro k hk
      exact hunch k (Or.inr (by omega))
  · intro hlt
    have hne : cs ≠ [] := by
      intro h2
      rw [h2] at hlt
      simp at hlt
    obtain ⟨n2, hw⟩ := write_node_charges_err cs smol.graphNodes 0 hne
      (by omega)
    simp only [SolvatedMolecule.optimise, if_neg h0, hr, Bool.not_true,
      Bool.false_eq_true, if_false, he, hf, hcs, hq, hw]

/-- Witness for C2 (amended): the one-charge list on the two-node graph is
written without error and leaves node 1 untouched. -/
theorem c2_charge_write_truncates_or_raises_witness :
    (smolC2.optimise methodX calcC2 (some qmmmC2)).err = none ∧
    (smolC2.optimise methodX calcC2 (some qmmmC2)).state.graphNodes.get? 1 =
      smolC2.graphNodes.get? 1 := by
  have h := c2_charge_write_truncates_or_raises Int smolC2 methodX calcC2
    (some qmmmC2) 1 [0, 1] [3] qmmmC2 (by decide) rfl rfl rfl rfl rfl
  exact ⟨(h.1 (by decide)).1, (h.1 (by decide)).2.2.2 1 (by decide)⟩

/-- C8: the solvent-atom fields of a solvated molecule are written only by
a fully successful optimisation pass: on any failure (`err ≠ none`) both
fields still hold their pre-call values; a normal return implies the
vacuum-optimisation stages (run, energy extraction, geometry extraction)
and the charge-extraction stage all succeeded and the sub-search returned,
with both fields and the species geometry taken from the sub-search result;
and when precisely the sub-search fails, the molecule's geometry is still
the vacuum-refined geometry — the sub-search's species geometry was not
applied either. -/
theorem c8_solvent_fields_require_success (A : Type)
    (smol : SolvatedMolecule A) (method : Method) (opt : Calculation A)
    (qmmm : Option (QmmmResult A)) :
    ((smol.optimise method opt qmmm).err ≠ none →
      (smol.optimise method opt qmmm).state.qm_solvent_atoms =
        smol.qm_solvent_atoms ∧
      (smol.optimise method opt qmmm).state.mm_solvent_atoms =
        smol.mm_solvent_atoms) ∧
    ((smol.optimise method opt qmmm).err = none →
      opt.runOk = true ∧ opt.energy.isSome = true ∧
      opt.finalAtoms.isSome = true ∧ opt.atomicCharges.isSome = true ∧
      ∃ r, qmmm = some r ∧
        (smol.optimise method opt qmmm).state.qm_solvent_atoms =
          some r.qm_solvent_atoms ∧
        (smol.optimise method opt qmmm).state.mm_solvent_atoms =
          some r.mm_solvent_atoms ∧
        (smol.optimise method opt qmmm).state.atoms = r.species_atoms) ∧
    ((smol.optimise method opt qmmm).err = some .qmmmFailed →
      opt.finalAtoms = some (smol.optimise method opt qmmm).state.atoms) := by
  unfold SolvatedMolecule.optimise
  repeat' split
  all_goals try simp
  all_goals repeat' split
  all_goals simp_all

/-- Witness for C8: when the sub-search collaborator fails, neither
solvent-atom field is set. -/
theorem c8_solvent_fields_require_success_witness :
    (smolC2.optimise methodX calcC2 none).state.qm_solvent_atoms =
      smolC2.qm_solvent_atoms ∧
    (smolC2.optimise methodX calcC2 none).state.mm_solvent_atoms =
      smolC2.mm_solvent_atoms :=
  (c8_solvent_fields_require_success Int smolC2 methodX calcC2 none).1
    (by decide)

end Autode
